import Mathlib

/-!
A shallow embedding of `scripts/validate-links.py`, the RIPP protocol
documentation link validator, together with proofs about its behaviour.

Strings are modelled as `List Char` (`Str`); filesystem paths are modelled
as lists of path segments (`Path`), absolute from the filesystem root, and
rendered to strings with a leading slash per segment (`pathStr`), matching
`str()` on an absolute `pathlib.Path`.  The filesystem is an oracle
`fs : Path → Bool` telling which (normalized, absolute) paths exist; calling
`exists()` on a path is modelled by normalizing it first (`existsFs`), which
is what the OS does lexically in the absence of symlinks.  The scan of
`root_path.rglob('*.md')` is abstracted as an explicit list of discovered
markdown files (`MdFile`), each carrying its path, whether opening it
succeeds (`readable`), and its text content.
-/

namespace ValidateLinks

/-- Python strings, as lists of characters. -/
abbrev Str := List Char

/-- A filesystem path as its list of segments (absolute, from the root). -/
abbrev Path := List Str

/-- Shorthand turning a Lean string literal into a `Str`. -/
def sl (s : String) : Str := s.toList

/-- `str()` of an absolute path: a leading `/` before every segment. -/
def pathStr (p : Path) : Str := p.foldl (fun acc seg => acc ++ '/' :: seg) []

/-- `s.startswith(c)` for a single character. -/
def startsWithChar (c : Char) : Str → Bool
  | [] => false
  | d :: _ => d == c

/-- Python's substring test `pat in s`. -/
def isSubstring (pat : Str) : Str → Bool
  | [] => pat.isEmpty
  | c :: rest => pat.isPrefixOf (c :: rest) || isSubstring pat rest

/-- Split a string on `/`, keeping the raw chunks (including empty ones). -/
def splitSlashAux : Str → Str → List Str
  | [], acc => [acc.reverse]
  | c :: rest, acc =>
    if c == '/' then acc.reverse :: splitSlashAux rest []
    else splitSlashAux rest (c :: acc)

/-- `pathlib` path-string parsing: split on `/`, dropping empty chunks and
spurious `.` segments (pathlib removes those at construction; `..` is kept). -/
def splitSlash (s : Str) : List Str :=
  (splitSlashAux s []).filter (fun seg => !(seg == []) && !(seg == ['.']))

/-- `Path.resolve()` without symlinks: collapse `.` and `..` lexically
(`..` at the filesystem root stays at the root). -/
def normalize (p : Path) : Path :=
  p.foldl
    (fun acc seg =>
      if seg == sl ".." then acc.dropLast
      else if seg == sl "." then acc
      else acc ++ [seg])
    []

/-- `Path.parent` (on the root itself pathlib returns the root; the scan
never takes the parent of the filesystem root, so `dropLast` suffices). -/
def parentDir (p : Path) : Path := p.dropLast

/-- `Path.parents`: every proper ancestor of the path, i.e. every proper
prefix of its segment list. -/
def parentsList (p : Path) : List Path :=
  (List.range p.length).map fun k => p.take k

/-- `REPO_ROOT = Path(__file__).resolve().parent.parent`: two directory
levels above the tool's own file. -/
def REPO_ROOT (scriptFile : Path) : Path :=
  parentDir (parentDir (normalize scriptFile))

/-- `is_path_safe`: the resolved target equals the resolved repository root
or has it among its ancestors. -/
def is_path_safe (root target : Path) : Bool :=
  let resolvedTarget := normalize target
  let resolvedRoot := normalize root
  resolvedTarget == resolvedRoot || (parentsList resolvedTarget).contains resolvedRoot

/-- `is_external_link`: the url starts with `http://`, `https://` or `mailto:`. -/
def is_external_link (link : Str) : Bool :=
  (sl "http://").isPrefixOf link || (sl "https://").isPrefixOf link ||
    (sl "mailto:").isPrefixOf link

/-- `is_anchor_only`: the url starts with `#`. -/
def is_anchor_only (link : Str) : Bool := startsWithChar '#' link

/-- `has_liquid_template`: the url contains `\x7b\x7b` or `\x7d\x7d`. -/
def has_liquid_template (link : Str) : Bool :=
  isSubstring (sl "\x7b\x7b") link || isSubstring (sl "\x7d\x7d") link

/-- `link.split('#')[0]`: everything before the first `#`. -/
def anchorStrip (link : Str) : Str := link.takeWhile (fun c => c != '#')

/-- `is_wiki_style_link`: containing file under `docs/wiki`, url not ending
in `.md` or `/`, and no `/` in the pre-anchor portion. -/
def is_wiki_style_link (link : Str) (filePathStr : Str) : Bool :=
  isSubstring (sl "docs/wiki") filePathStr &&
  !((sl ".md").isSuffixOf link) &&
  !((sl "/").isSuffixOf link) &&
  !((anchorStrip link).contains '/')

/-- `target.exists()`: the OS resolves the path, then checks it. -/
def existsFs (fs : Path → Bool) (p : Path) : Bool := fs (normalize p)

/-- `resolve_target_path`: strip the anchor; a url starting with `/` is
rooted at `REPO_ROOT / 'docs'` with its leading slashes stripped, anything
else is joined to the containing file's directory and resolved; return
`none` (Python `None`) when the result is not path-safe. -/
def resolve_target_path (root : Path) (link : Str) (fileDir : Path) : Option Path :=
  let clean := anchorStrip link
  let target :=
    if startsWithChar '/' clean then
      root ++ [sl "docs"] ++ splitSlash (clean.dropWhile (fun c => c == '/'))
    else
      normalize (fileDir ++ splitSlash clean)
  if is_path_safe root target then some target else none

/-- `check_wiki_style_link`: append `.md` to the bare name in the containing
file's directory; unsafe paths count as non-existent. -/
def check_wiki_style_link (root : Path) (fs : Path → Bool) (link : Str)
    (fileDir : Path) : Bool :=
  let targetWithExt := fileDir ++ [link ++ sl ".md"]
  if !(is_path_safe root targetWithExt) then false
  else existsFs fs targetWithExt

/-- One attempted match of the pattern at a position just past a `[`:
greedily take the text up to `]`, require `](`, then a nonempty url up to
`)`, and require the closing `)`.  Returns the text group, the url group and
the remainder of the input after the match. -/
def tryMatch (l : Str) : Option (Str × Str × Str) :=
  let t := l.takeWhile (fun c => c != ']')
  match l.dropWhile (fun c => c != ']') with
  | ']' :: '(' :: r2 =>
    let u := r2.takeWhile (fun c => c != ')')
    match r2.dropWhile (fun c => c != ')') with
    | ')' :: r4 => if u.isEmpty then none else some (t, u, r4)
    | _ => none
  | _ => none

/-- Scanner for `re.findall` of the link pattern, structurally recursive on
a fuel argument (each step consumes at least one character, so
`length + 1` fuel always suffices). -/
def findLinksFuel : Nat → Str → List (Str × Str)
  | 0, _ => []
  | _ + 1, [] => []
  | fuel + 1, c :: rest =>
    if c == '[' then
      match tryMatch rest with
      | some (t, u, r) => (t, u) :: findLinksFuel fuel r
      | none => findLinksFuel fuel rest
    else findLinksFuel fuel rest

/-- `find_markdown_links`: all `(text, url)` groups of the non-overlapping,
left-to-right matches of the regex, where text has no `]` and url is a
nonempty run without `)`. -/
def find_markdown_links (content : Str) : List (Str × Str) :=
  findLinksFuel (content.length + 1) content

/-- The error dictionaries collected by `check_links`. -/
structure ErrorRecord where
  file : Str
  link : Str
  expected : Str
  etype : Str
deriving DecidableEq, Repr

/-- A markdown file discovered by `root_path.rglob('*.md')`: its path,
whether opening and reading it succeeds, and its decoded content. -/
structure MdFile where
  path : Path
  readable : Bool
  content : Str
deriving DecidableEq, Repr

/-- The sentinel `expected` message for unsafe targets. -/
def unsafeMsg : Str := sl "UNSAFE PATH (outside repository)"

/-- The dedup key `f"\x7bmd_file\x7d:\x7blink\x7d"`. -/
def checkKey (f : MdFile) (link : Str) : Str := pathStr f.path ++ ':' :: link

/-- The loop state of `check_links`: the `checked` dedup set (as a list of
keys) and the `errors` list. -/
abbrev ScanState := List Str × List ErrorRecord

/-- The body of the per-link loop of `check_links` (lines 159-214 of the
script): skip external, anchor-only, templated and empty-after-stripping
links, deduplicate on the `file:link` key, then run the wiki-style check or
the regular resolve-and-exists check, appending at most one error. -/
def processLink (root : Path) (fs : Path → Bool) (f : MdFile) (link : Str)
    (st : ScanState) : ScanState :=
  if is_external_link link then st
  else if is_anchor_only link then st
  else if has_liquid_template link then st
  else
    let clean := anchorStrip link
    if clean.isEmpty then st
    else
      let key := checkKey f link
      if st.1.contains key then st
      else
        let checked := key :: st.1
        if is_wiki_style_link clean (pathStr f.path) then
          if !(check_wiki_style_link root fs clean (parentDir f.path)) then
            (checked,
             st.2 ++ [⟨pathStr f.path, link,
                       pathStr (parentDir f.path ++ [clean ++ sl ".md"]),
                       sl "wiki-style"⟩])
          else (checked, st.2)
        else
          match resolve_target_path root clean (parentDir f.path) with
          | none =>
            (checked, st.2 ++ [⟨pathStr f.path, link, unsafeMsg, sl "security"⟩])
          | some target =>
            if !(existsFs fs target) then
              (checked, st.2 ++ [⟨pathStr f.path, link, pathStr target, sl "regular"⟩])
            else (checked, st.2)

/-- The discovery-time exclusion test: plain substring matching of
`node_modules`, `.git` and `docs/audit` against the file's path string. -/
def isExcluded (pstr : Str) : Bool :=
  isSubstring (sl "node_modules") pstr || isSubstring (sl ".git") pstr ||
    isSubstring (sl "docs/audit") pstr

/-- The per-file step of `check_links`: skip excluded paths, skip unreadable
files (after printing a warning, which the embedding drops), otherwise fold
the per-link step over all extracted links. -/
def processFile (root : Path) (fs : Path → Bool) (f : MdFile) (st : ScanState) :
    ScanState :=
  if isExcluded (pathStr f.path) then st
  else if !f.readable then st
  else (find_markdown_links f.content).foldl
    (fun st p => processLink root fs f p.2 st) st

/-- `check_links`: fold the per-file step over the discovered markdown files,
starting from an empty dedup set and error list, and return the errors. -/
def check_links (root : Path) (fs : Path → Bool) (files : List MdFile) :
    List ErrorRecord :=
  (files.foldl (fun st f => processFile root fs f st) ([], [])).2

/-- `main`: run `check_links`, print the report, and return `1` when the
error list is nonempty and `0` when it is empty. -/
def mainExitCode (root : Path) (fs : Path → Bool) (files : List MdFile) : Nat :=
  if (check_links root fs files).isEmpty then 0 else 1

/-- The default `root_dir` argument of `check_links`, the string `'.'`. -/
def default_root_dir : Str := sl "."

/-- Interpret a path string the way `pathlib.Path` does against a current
working directory: absolute strings stand alone, relative ones are joined
to the working directory. -/
def pathFromStr (cwd : Path) (s : Str) : Path :=
  if startsWithChar '/' s then splitSlash s else cwd ++ splitSlash s

/-- The directory actually scanned when `main` calls `check_links()` with no
argument: `Path('.')` interpreted against the current working directory. -/
def defaultScanRoot (cwd : Path) : Path := pathFromStr cwd default_root_dir

/-- The `file:link` key determined by an error record. -/
def ekey (e : ErrorRecord) : Str := e.file ++ ':' :: e.link

/-- C1: for a link that reaches the regular branch (not external, not
anchor-only, not templated, nonempty after anchor stripping, not previously
checked, not wiki-style) and whose anchor-stripped, resolved, normalized
target is unsafe (`resolve_target_path` returns `None`), `check_links`'s
per-link step appends exactly one error of type `"security"` whose
`expected` field is the sentinel `'UNSAFE PATH (outside repository)'`.  The
right-hand side does not mention the filesystem oracle `fs`, so the result
is the same for every filesystem: no existence check is performed on the
target — the security check preempts the existence check. -/
theorem c1_unsafe_target_security_error
    (root : Path) (fs : Path → Bool) (f : MdFile) (link : Str) (st : ScanState)
    (hext : is_external_link link = false)
    (hanch : is_anchor_only link = false)
    (hliq : has_liquid_template link = false)
    (hclean : (anchorStrip link).isEmpty = false)
    (hkey : st.1.contains (checkKey f link) = false)
    (hwiki : is_wiki_style_link (anchorStrip link) (pathStr f.path) = false)
    (hnone : resolve_target_path root (anchorStrip link) (parentDir f.path) = none) :
    processLink root fs f link st =
      (checkKey f link :: st.1,
       st.2 ++ [⟨pathStr f.path, link, unsafeMsg, sl "security"⟩]) := by
  have hkey' : checkKey f link ∉ st.1 := by simpa using hkey
  simp [processLink, hext, hanch, hliq, hclean, hkey', hwiki, hnone]

/-- Witness for C1: a traversal link `../../../../etc/passwd` in
`/repo/docs/a.md` yields exactly the security record, with the sentinel
message, on the empty state. -/
theorem c1_witness :
    processLink [sl "repo"] (fun _ => false)
        ⟨[sl "repo", sl "docs", sl "a.md"], true, sl ""⟩
        (sl "../../../../etc/passwd") ([], []) =
      (checkKey ⟨[sl "repo", sl "docs", sl "a.md"], true, sl ""⟩
          (sl "../../../../etc/passwd") :: [],
       [] ++ [⟨pathStr [sl "repo", sl "docs", sl "a.md"],
               sl "../../../../etc/passwd", unsafeMsg, sl "security"⟩]) :=
  c1_unsafe_target_security_error [sl "repo"] (fun _ => false)
    ⟨[sl "repo", sl "docs", sl "a.md"], true, sl ""⟩
    (sl "../../../../etc/passwd") ([], [])
    (by decide) (by decide) (by decide) (by decide) (by decide) (by decide)
    (by decide)

/-- C4: external (`http://`, `https://`, `mailto:`), anchor-only (`#...`)
and templated (`\x7b\x7b` or `\x7d\x7d`) links are skipped by the per-link
step of `check_links` before any check: the state, and in particular the
error list, is unchanged, regardless of the filesystem. -/
theorem c4_external_anchor_templated_skipped
    (root : Path) (fs : Path → Bool) (f : MdFile) (link : Str) (st : ScanState)
    (h : is_external_link link = true ∨ is_anchor_only link = true ∨
         has_liquid_template link = true) :
    processLink root fs f link st = st := by
  rcases h with h | h | h
  · simp [processLink, h]
  · simp [processLink, h]
  · rcases hext : is_external_link link with _ | _ <;>
      rcases hanch : is_anchor_only link with _ | _ <;>
      simp [processLink, hext, hanch, h]

/-- Witness for C4: an external link whose nominal target does not exist
(the filesystem is empty) produces no change of state. -/
theorem c4_witness :
    processLink [sl "repo"] (fun _ => false)
        ⟨[sl "repo", sl "README.md"], true, sl ""⟩
        (sl "https://example.com/docs") ([], []) = ([], []) :=
  c4_external_anchor_templated_skipped [sl "repo"] (fun _ => false)
    ⟨[sl "repo", sl "README.md"], true, sl ""⟩
    (sl "https://example.com/docs") ([], []) (Or.inl (by decide))

/-- C5: for a link whose anchor-stripped url starts with `/`, resolution
does not depend on the containing file's directory at all, and when it
yields a target that target is the repository root joined with `docs`
joined with the url with its leading slashes removed — not a path rooted at
the filesystem root, nor at the repository root itself. -/
theorem c5_root_relative_links_rooted_at_docs
    (root : Path) (link : Str) (d₁ d₂ : Path)
    (h : startsWithChar '/' (anchorStrip link) = true) :
    resolve_target_path root link d₁ = resolve_target_path root link d₂ ∧
    (resolve_target_path root link d₁ = none ∨
     resolve_target_path root link d₁ =
       some (root ++ [sl "docs"] ++
         splitSlash ((anchorStrip link).dropWhile (fun c => c == '/')))) := by
  constructor
  · simp [resolve_target_path, h]
  · simp only [resolve_target_path, h, if_true]
    split
    · right; rfl
    · left; rfl

/-- Witness for C5: `/guide.md` in `/repo/docs/wiki` resolves to
`/repo/docs/guide.md`, independently of the containing directory. -/
theorem c5_witness :
    startsWithChar '/' (anchorStrip (sl "/guide.md")) = true ∧
    (resolve_target_path [sl "repo"] (sl "/guide.md") [sl "repo", sl "docs", sl "wiki"] =
       resolve_target_path [sl "repo"] (sl "/guide.md") [sl "somewhere"] ∧
     (resolve_target_path [sl "repo"] (sl "/guide.md") [sl "repo", sl "docs", sl "wiki"] = none ∨
      resolve_target_path [sl "repo"] (sl "/guide.md") [sl "repo", sl "docs", sl "wiki"] =
        some ([sl "repo"] ++ [sl "docs"] ++
          splitSlash ((anchorStrip (sl "/guide.md")).dropWhile (fun c => c == '/'))))) :=
  ⟨by decide,
   c5_root_relative_links_rooted_at_docs [sl "repo"] (sl "/guide.md")
     [sl "repo", sl "docs", sl "wiki"] [sl "somewhere"] (by decide)⟩

/-- C6: a regular link (not external, anchor-only, templated, empty or
wiki-style) whose resolved target is safe (`resolve_target_path` returns
`some`) and exists on the filesystem contributes no error record: the error
list of the per-link step is unchanged. -/
theorem c6_existing_target_no_error
    (root : Path) (fs : Path → Bool) (f : MdFile) (link : Str) (st : ScanState)
    (target : Path)
    (hext : is_external_link link = false)
    (hanch : is_anchor_only link = false)
    (hliq : has_liquid_template link = false)
    (hclean : (anchorStrip link).isEmpty = false)
    (hwiki : is_wiki_style_link (anchorStrip link) (pathStr f.path) = false)
    (hres : resolve_target_path root (anchorStrip link) (parentDir f.path) = some target)
    (hex : existsFs fs target = true) :
    (processLink root fs f link st).2 = st.2 := by
  rcases hkey : st.1.contains (checkKey f link) with _ | _
  · have hkey' : checkKey f link ∉ st.1 := by simpa using hkey
    simp [processLink, hext, hanch, hliq, hclean, hkey', hwiki, hres, hex]
  · have hkey' : checkKey f link ∈ st.1 := by simpa using hkey
    simp [processLink, hext, hanch, hliq, hclean, hkey']

/-- Witness for C6: `./x.md` in `/repo/docs/a.md` with `/repo/docs/x.md`
present on the filesystem produces no error. -/
theorem c6_witness :
    (processLink [sl "repo"] (fun p => p == [sl "repo", sl "docs", sl "x.md"])
        ⟨[sl "repo", sl "docs", sl "a.md"], true, sl ""⟩
        (sl "./x.md") ([], [])).2 = [] :=
  c6_existing_target_no_error [sl "repo"]
    (fun p => p == [sl "repo", sl "docs", sl "x.md"])
    ⟨[sl "repo", sl "docs", sl "a.md"], true, sl ""⟩
    (sl "./x.md") ([], []) [sl "repo", sl "docs", sl "x.md"]
    (by decide) (by decide) (by decide) (by decide) (by decide) (by decide)
    (by decide)

/-- C3: for a link reaching the dedup point (not external, anchor-only,
templated or empty, key fresh) that is classified wiki-style, the resolved
target is the containing file's directory joined with the anchor-stripped
link text plus a `.md` extension; the wiki check is exactly path-safety
together with existence of that target; if the target is safe and exists no
error is produced, and if it does not exist an error of type `"wiki-style"`
with `expected` equal to that computed path string is produced. -/
theorem c3_wiki_style_resolution
    (root : Path) (fs : Path → Bool) (f : MdFile) (link : Str) (st : ScanState)
    (hext : is_external_link link = false)
    (hanch : is_anchor_only link = false)
    (hliq : has_liquid_template link = false)
    (hclean : (anchorStrip link).isEmpty = false)
    (hkey : st.1.contains (checkKey f link) = false)
    (hwiki : is_wiki_style_link (anchorStrip link) (pathStr f.path) = true) :
    (check_wiki_style_link root fs (anchorStrip link) (parentDir f.path) =
       (is_path_safe root (parentDir f.path ++ [anchorStrip link ++ sl ".md"]) &&
        existsFs fs (parentDir f.path ++ [anchorStrip link ++ sl ".md"]))) ∧
    (is_path_safe root (parentDir f.path ++ [anchorStrip link ++ sl ".md"]) = true →
     existsFs fs (parentDir f.path ++ [anchorStrip link ++ sl ".md"]) = true →
     processLink root fs f link st = (checkKey f link :: st.1, st.2)) ∧
    (existsFs fs (parentDir f.path ++ [anchorStrip link ++ sl ".md"]) = false →
     processLink root fs f link st =
       (checkKey f link :: st.1,
        st.2 ++ [⟨pathStr f.path, link,
                  pathStr (parentDir f.path ++ [anchorStrip link ++ sl ".md"]),
                  sl "wiki-style"⟩])) := by
  have hkey' : checkKey f link ∉ st.1 := by simpa using hkey
  refine ⟨?_, ?_, ?_⟩
  · rcases h : is_path_safe root (parentDir f.path ++ [anchorStrip link ++ sl ".md"])
      with _ | _ <;> simp [check_wiki_style_link, h]
  · intro hsafe hex
    have hcw : check_wiki_style_link root fs (anchorStrip link) (parentDir f.path) = true := by
      simp [check_wiki_style_link, hsafe, hex]
    simp [processLink, hext, hanch, hliq, hclean, hkey', hwiki, hcw]
  · intro hex
    have hcw : check_wiki_style_link root fs (anchorStrip link) (parentDir f.path) = false := by
      rcases h : is_path_safe root (parentDir f.path ++ [anchorStrip link ++ sl ".md"])
        with _ | _ <;> simp [check_wiki_style_link, h, hex]
    simp [processLink, hext, hanch, hliq, hclean, hkey', hwiki, hcw]

/-- Witness for C3: `[Other](OtherPage)` in `/docs/wiki/Home.md` with
`/docs/wiki/OtherPage.md` present produces no error. -/
theorem c3_witness :
    processLink [] (fun p => p == [sl "docs", sl "wiki", sl "OtherPage.md"])
        ⟨[sl "docs", sl "wiki", sl "Home.md"], true, sl ""⟩
        (sl "OtherPage") ([], []) =
      (checkKey ⟨[sl "docs", sl "wiki", sl "Home.md"], true, sl ""⟩
          (sl "OtherPage") :: [], []) :=
  (c3_wiki_style_resolution [] (fun p => p == [sl "docs", sl "wiki", sl "OtherPage.md"])
      ⟨[sl "docs", sl "wiki", sl "Home.md"], true, sl ""⟩
      (sl "OtherPage") ([], [])
      (by decide) (by decide) (by decide) (by decide) (by decide)
      (by decide)).2.1 (by decide) (by decide)

/-- Counterexample for C2: `check_links`'s default `root_dir` is `'.'`, the
process's current working directory, not `REPO_ROOT`.  With the tool at
`/repo/scripts/validate-links.py`, `REPO_ROOT` is `/repo` (two levels above
the tool), but invoked from the working directory `/home/user` the default
scan root is `/home/user` ≠ `/repo`. -/
theorem c2_counterexample :
    REPO_ROOT [sl "repo", sl "scripts", sl "validate-links.py"] = [sl "repo"] ∧
    defaultScanRoot [sl "home", sl "user"] = [sl "home", sl "user"] ∧
    defaultScanRoot [sl "home", sl "user"] ≠
      REPO_ROOT [sl "repo", sl "scripts", sl "validate-links.py"] := by
  decide

/-- C2 amended: when invoked with no arguments the tool scans `check_links`'s
default root directory `'.'`, i.e. the current working directory — which
equals the repository root (computed as two directory levels above the
tool's own file location) exactly when the tool is invoked from the
repository root, as the documented usage does. -/
theorem c2_default_scan_root_is_cwd (cwd script : Path) :
    defaultScanRoot cwd = cwd ∧
    defaultScanRoot (REPO_ROOT script) = REPO_ROOT script := by
  have h : ∀ q : Path, defaultScanRoot q = q := by
    intro q
    simp [defaultScanRoot, pathFromStr, default_root_dir, splitSlash,
      splitSlashAux, sl, startsWithChar]
  exact ⟨h cwd, h (REPO_ROOT script)⟩

/-- A file that cannot be read is skipped: the warning goes to stderr and
the scan state is unchanged. -/
theorem processFile_skip_unreadable {root : Path} {fs : Path → Bool}
    {f : MdFile} {st : ScanState} (h : f.readable = false) :
    processFile root fs f st = st := by
  simp [processFile, h]

/-- A file whose path string matches the exclusion substrings is skipped. -/
theorem processFile_skip_excluded {root : Path} {fs : Path → Bool}
    {f : MdFile} {st : ScanState} (h : isExcluded (pathStr f.path) = true) :
    processFile root fs f st = st := by
  simp [processFile, h]

/-- Folding a step that fixes every element rejected by `p` is the same as
folding over the `p`-filtered list. -/
theorem foldl_filter_of_skip (g : ScanState → MdFile → ScanState)
    (p : MdFile → Bool) (h : ∀ st f, p f = false → g st f = st) :
    ∀ (files : List MdFile) (st : ScanState),
      files.foldl g st = (files.filter p).foldl g st := by
  intro files
  induction files with
  | nil => intro st; rfl
  | cons f rest ih =>
    intro st
    rcases hp : p f with _ | _
    · simp only [List.foldl_cons, List.filter_cons, hp, h st f hp]
      simpa using ih st
    · simp only [List.foldl_cons, List.filter_cons, hp, if_true]
      simpa using ih (g st f)

/-- C8: the exit status is `0` exactly when `check_links` returns an empty
error list and `1` exactly when it returns one or more errors; unreadable
files are logged and skipped, contribute nothing to the error list, and
therefore do not affect the exit status (the scan equals the scan of the
readable files alone). -/
theorem c8_exit_status (root : Path) (fs : Path → Bool) (files : List MdFile) :
    (mainExitCode root fs files = 0 ↔ check_links root fs files = []) ∧
    (mainExitCode root fs files = 1 ↔ check_links root fs files ≠ []) ∧
    check_links root fs files =
      check_links root fs (files.filter (fun f => f.readable)) := by
  refine ⟨?_, ?_, ?_⟩
  · by_cases h : check_links root fs files = [] <;>
      simp [mainExitCode, List.isEmpty_iff, h]
  · by_cases h : check_links root fs files = [] <;>
      simp [mainExitCode, List.isEmpty_iff, h]
  · unfold check_links
    rw [foldl_filter_of_skip (fun st f => processFile root fs f st)
      (fun f => f.readable)
      (fun st f hf => processFile_skip_unreadable (by simpa using hf))]

/-- C10: file exclusion is plain substring matching on the whole path
string: the scan equals the scan of the files whose path string contains
none of `node_modules`, `.git`, `docs/audit` (so excluded files contribute
no errors), and the matching is not per path segment — a file under a
`.github` directory is excluded because `.github` contains `.git`, while
ordinary `docs` files are not excluded and files under `node_modules` or
`docs/audit` are. -/
theorem c10_substring_exclusion :
    (∀ (root : Path) (fs : Path → Bool) (files : List MdFile),
       check_links root fs files =
         check_links root fs
           (files.filter (fun f => !(isExcluded (pathStr f.path))))) ∧
    isExcluded (pathStr [sl "repo", sl ".github", sl "workflows", sl "ci.md"]) = true ∧
    isExcluded (pathStr [sl "repo", sl "docs", sl "guide.md"]) = false ∧
    isExcluded (pathStr [sl "repo", sl "node_modules", sl "pkg", sl "README.md"]) = true ∧
    isExcluded (pathStr [sl "repo", sl "docs", sl "audit", sl "old.md"]) = true := by
  refine ⟨?_, by decide, by decide, by decide, by decide⟩
  intro root fs files
  unfold check_links
  rw [foldl_filter_of_skip (fun st f => processFile root fs f st)
    (fun f => !(isExcluded (pathStr f.path)))
    (fun st f hf => processFile_skip_excluded (by simpa using hf))]

/-- The scan invariant: every collected error's `file:link` key is in the
`checked` set, and the keys of the collected errors are pairwise distinct. -/
def ScanInv (st : ScanState) : Prop :=
  (∀ e ∈ st.2, ekey e ∈ st.1) ∧ (st.2.map ekey).Nodup

/-- Appending an error whose key is fresh preserves the scan invariant. -/
theorem scanInv_append {st : ScanState} {key : Str} (h : ScanInv st)
    (hk : key ∉ st.1) (e : ErrorRecord) (he : ekey e = key) :
    ScanInv (key :: st.1, st.2 ++ [e]) := by
  constructor
  · intro x hx
    rcases List.mem_append.1 hx with hx | hx
    · exact List.mem_cons_of_mem _ (h.1 x hx)
    · rw [List.mem_singleton.1 hx, he]; exact List.mem_cons_self _ _
  · have hnot : key ∉ st.2.map ekey := by
      intro hmem
      rcases List.mem_map.1 hmem with ⟨y, hy, hky⟩
      exact hk (hky ▸ h.1 y hy)
    rw [List.map_append]
    exact List.Nodup.append h.2 (List.nodup_singleton _)
      (by simpa [List.disjoint_singleton, he] using hnot)

/-- Pushing the key without an error preserves the scan invariant. -/
theorem scanInv_push {st : ScanState} (h : ScanInv st) (key : Str) :
    ScanInv (key :: st.1, st.2) :=
  ⟨fun e he => List.mem_cons_of_mem _ (h.1 e he), h.2⟩

/-- The per-link step preserves the scan invariant. -/
theorem processLink_inv (root : Path) (fs : Path → Bool) (f : MdFile)
    (link : Str) (st : ScanState) (h : ScanInv st) :
    ScanInv (processLink root fs f link st) := by
  simp only [processLink]
  split
  · exact h
  split
  · exact h
  split
  · exact h
  split
  · exact h
  split
  · exact h
  next hkey =>
  have hk : checkKey f link ∉ st.1 := by simpa using hkey
  split
  · split
    · exact scanInv_append h hk _ rfl
    · exact scanInv_push h _
  · split
    · exact scanInv_append h hk _ rfl
    · split
      · exact scanInv_append h hk _ rfl
      · exact scanInv_push h _

/-- Folding the per-link step over any link list preserves the invariant. -/
theorem foldl_processLink_inv (root : Path) (fs : Path → Bool) (f : MdFile) :
    ∀ (links : List (Str × Str)) (st : ScanState), ScanInv st →
      ScanInv (links.foldl (fun st p => processLink root fs f p.2 st) st) := by
  intro links
  induction links with
  | nil => intro st h; exact h
  | cons p rest ih =>
    intro st h
    exact ih _ (processLink_inv root fs f p.2 st h)

/-- The per-file step preserves the scan invariant. -/
theorem processFile_inv (root : Path) (fs : Path → Bool) (f : MdFile)
    (st : ScanState) (h : ScanInv st) : ScanInv (processFile root fs f st) := by
  simp only [processFile]
  split
  · exact h
  split
  · exact h
  · exact foldl_processLink_inv root fs f _ st h

/-- The whole scan establishes the invariant from the empty state. -/
theorem foldl_processFile_inv (root : Path) (fs : Path → Bool) :
    ∀ (files : List MdFile) (st : ScanState), ScanInv st →
      ScanInv (files.foldl (fun st f => processFile root fs f st) st) := by
  intro files
  induction files with
  | nil => intro st h; exact h
  | cons f rest ih =>
    intro st h
    exact ih _ (processFile_inv root fs f st h)

/-- C7: all `(file, link)` pairs of the error list returned by `check_links`
are pairwise distinct — at most one error record per distinct pair, even
when the same link occurs multiple times in the same file. -/
theorem c7_at_most_one_error_per_file_link
    (root : Path) (fs : Path → Bool) (files : List MdFile) :
    ((check_links root fs files).map (fun e => (e.file, e.link))).Nodup := by
  have h := foldl_processFile_inv root fs files ([], [])
    ⟨fun e he => absurd he (List.not_mem_nil e), List.nodup_nil⟩
  apply List.Nodup.of_map (fun pr : Str × Str => pr.1 ++ ':' :: pr.2)
  rw [List.map_map]
  exact h.2

/-- A successful match of the link pattern has a nonempty url group (the
url part of the pattern requires at least one character). -/
theorem tryMatch_url_ne_nil {l t u r : Str} (h : tryMatch l = some (t, u, r)) :
    u ≠ [] := by
  unfold tryMatch at h
  split at h
  · split at h
    · dsimp only at h
      split at h
      · exact absurd h (by simp)
      · next hne =>
        rw [Option.some_inj] at h
        obtain ⟨rfl, rfl, rfl⟩ := Prod.mk.injEq .. ▸ h
        simpa [List.isEmpty_iff] using hne
    · exact absurd h (by simp)
  · exact absurd h (by simp)

/-- Every url extracted by the fueled scanner is nonempty. -/
theorem findLinksFuel_url_ne_nil :
    ∀ (fuel : Nat) (s : Str) (p : Str × Str), p ∈ findLinksFuel fuel s →
      p.2 ≠ [] := by
  intro fuel
  induction fuel with
  | zero => intro s p hp; simp [findLinksFuel] at hp
  | succ n ih =>
    intro s p hp
    match s with
    | [] => simp [findLinksFuel] at hp
    | c :: rest =>
      simp only [findLinksFuel] at hp
      split at hp
      · split at hp
        · next t u r hm =>
          rcases List.mem_cons.1 hp with hp | hp
          · subst hp; exact tryMatch_url_ne_nil hm
          · exact ih r p hp
        · exact ih rest p hp
      · exact ih rest p hp

/-- A nonempty url that is not anchor-only has a nonempty anchor-stripped
portion. -/
theorem anchorStrip_ne_nil_of_not_anchor {u : Str} (hu : u ≠ [])
    (h : is_anchor_only u = false) : anchorStrip u ≠ [] := by
  cases u with
  | nil => exact absurd rfl hu
  | cons c cs =>
    have hc : (c == '#') = false := by
      simpa [is_anchor_only, startsWithChar] using h
    have hc' : (c != '#') = true := by simp [bne, hc]
    simp [anchorStrip, List.takeWhile, hc']

/-- C9: every `(text, url)` pair returned by `find_markdown_links` has a
nonempty url, and when the url is not anchor-only (does not begin with `#`)
its anchor-stripped portion is nonempty — so, since anchor-only links are
skipped earlier, the empty-after-anchor-stripping skip branch of
`check_links` is unreachable for extracted links. -/
theorem c9_extracted_url_nonempty (content : Str) :
    ∀ p ∈ find_markdown_links content,
      p.2 ≠ [] ∧ (is_anchor_only p.2 = false → anchorStrip p.2 ≠ []) := by
  intro p hp
  have h1 : p.2 ≠ [] :=
    findLinksFuel_url_ne_nil (content.length + 1) content p hp
  exact ⟨h1, fun h => anchorStrip_ne_nil_of_not_anchor h1 h⟩

/-- Witness for C9: the link `[a](b#)` extracts the url `b#`, which is
nonempty, not anchor-only, and anchor-strips to the nonempty `b`. -/
theorem c9_witness :
    (sl "a", sl "b#") ∈ find_markdown_links (sl "[a](b#)") ∧
    ((sl "a", sl "b#") : Str × Str).2 ≠ [] ∧
    (is_anchor_only ((sl "a", sl "b#") : Str × Str).2 = false →
      anchorStrip ((sl "a", sl "b#") : Str × Str).2 ≠ []) :=
  ⟨by decide, c9_extracted_url_nonempty (sl "[a](b#)") (sl "a", sl "b#") (by decide)⟩

end ValidateLinks
